import Mathlib

/-!
# Verification of the Debian vulnerability-scan dashboards and scan backend

Shallow embedding of the repository's code:

* `ResultsDash` — the `/results.json` CVE dashboard
  (`src/users-dashboard-modules/src/CveDashboard.jsx`).
* `Results2Dash` — the `/results2.json` vulnerability dashboard
  (second component in `src/unnamed/part_000`).
* `UsersDash` — the users dashboard (first component in `src/unnamed/part_000`).
* `Backend` — the scan backend; its Python modules are not in the
  repository snapshot (only `src/backend/README.md`), so those definitions
  are modelled from the specification, as marked on each definition.

JavaScript semantics used by this code are modelled explicitly:
dynamic values are `JSVal` (null/undefined collapse to `JSVal.null`, since
the code only observes them through `== null` and `??`); `Number(-)`,
`String(-)`, `trim`, `toLowerCase`, `includes` and `localeCompare` are
given as computable functions over `List Char`; `Array.prototype.sort`
with a consistent comparator is the stable sort `List.mergeSort` with
`le a b` meaning "the comparator does not return a positive number".
-/

/-- A JavaScript JSON value as observed by the dashboard code: `null`
covers both JSON null and an absent (undefined) field, numbers are finite
doubles modelled as rationals, and strings are Lean strings.  Booleans and
nested objects never reach the code paths embedded here. -/
inductive JSVal where
  | null
  | num (q : ℚ)
  | str (s : String)
deriving DecidableEq, Repr

/-- The whitespace characters recognised by the JavaScript `trim` (the
ASCII fragment relevant to this data). -/
def jsWhite (c : Char) : Bool :=
  c = ' ' || c = '\t' || c = '\n' || c = '\r'

/-- Models `String.prototype.trim`: strip leading and trailing whitespace,
modelled over the character list. -/
def jsTrim (s : String) : String :=
  ⟨((s.data.dropWhile jsWhite).reverse.dropWhile jsWhite).reverse⟩

/-- Models `String.prototype.toLowerCase` as per-character ASCII
lowering (the data this code handles is ASCII). -/
def jsLower (s : String) : String :=
  ⟨s.data.map Char.toLower⟩

/-- Value of a string of decimal digits, `none` if any character is not a
digit (the empty string is `some 0`; callers rule that case out). -/
def decDigitsVal : List Char → Option ℕ
  | [] => some 0
  | c :: cs =>
    if c.isDigit then
      (decDigitsVal cs).map (fun n => (c.toNat - 48) * 10 ^ cs.length + n)
    else none

/-- Splits a character list at the first `.`, returning the parts before
and after it, or `none` when no `.` occurs. -/
def splitDot : List Char → Option (List Char × List Char)
  | [] => none
  | c :: cs =>
    if c = '.' then some ([], cs)
    else (splitDot cs).map (fun p => (c :: p.1, p.2))

/-- Models the JavaScript `Number(string)` coercion on the decimal-literal
fragment this data uses (score strings such as `"7.8"`): surrounding
whitespace is ignored, the empty string is `0`, an optional sign precedes
decimal digits with an optional single fractional point, and any other
string (such as `"n/a"`) yields NaN.  NaN and the non-finite values are
both represented by `none`, matching the `Number.isFinite` guard through
which the dashboards consume this function. -/
def jsStringToNumber (s : String) : Option ℚ :=
  let t := (jsTrim s).data
  match t with
  | [] => some 0
  | _ =>
    let (sign, body) : ℚ × List Char :=
      match t with
      | '-' :: rest => (-1, rest)
      | '+' :: rest => (1, rest)
      | _ => (1, t)
    match splitDot body with
    | none => if body.isEmpty then none else (decDigitsVal body).map (fun n => sign * n)
    | some (ip, fp) =>
      if ip.isEmpty && fp.isEmpty then none
      else
        match decDigitsVal ip, decDigitsVal fp with
        | some i, some f => some (sign * ((i : ℚ) + (f : ℚ) / 10 ^ fp.length))
        | _, _ => none

/-- Models `Number(-)` on a JSON value, composed with the finiteness view:
`Number(null)` is `0`, a number is itself, a string goes through
`jsStringToNumber`.  `none` stands for NaN. -/
def jsNumber : JSVal → Option ℚ
  | .null => some 0
  | .num q => some q
  | .str s => jsStringToNumber s

/-- Fractional decimal digits of a rational in `[0, 1)`, most significant
first, stopping when the remainder is zero and truncating at the given
fuel (JavaScript prints at most 17 significant digits; the scores here
terminate well before that). -/
def fracDigits : ℕ → ℚ → List ℕ
  | 0, _ => []
  | fuel + 1, f =>
    if f = 0 then []
    else
      let d := (f * 10).floor
      d.toNat :: fracDigits fuel (f * 10 - (d : ℚ))

/-- Models `String(number)` for the terminating-decimal values appearing
in this data: sign, integer part, and a fractional part when nonzero. -/
def ratToString (q : ℚ) : String :=
  let sgn := if q < 0 then "-" else ""
  let a := if q < 0 then -q else q
  let ip := a.floor
  let ds := fracDigits 20 (a - (ip : ℚ))
  if ds.isEmpty then sgn ++ toString ip
  else sgn ++ toString ip ++ "." ++ String.join (ds.map (fun d => toString d))

/-- Models `String(-)` on a JSON value (`null` stringifies to `"null"`, but every
call site below guards nullish values away first). -/
def jsToString : JSVal → String
  | .null => "null"
  | .num q => ratToString q
  | .str s => s

/-- Three-way comparison of naturals as an `Ordering`. -/
def natCmp (x y : ℕ) : Ordering :=
  if x < y then .lt else if y < x then .gt else .eq

/-- Lexicographic three-way comparison of character lists by code point,
modelling `String.prototype.localeCompare` on the ASCII identifiers this
data carries (only the sign of `localeCompare` is consumed). -/
def lexCmp : List Char → List Char → Ordering
  | [], [] => .eq
  | [], _ :: _ => .lt
  | _ :: _, [] => .gt
  | a :: as, b :: bs =>
    match natCmp a.toNat b.toNat with
    | .eq => lexCmp as bs
    | o => o

/-- Three-way comparison of rationals as an `Ordering`. -/
def ratCmp (x y : ℚ) : Ordering :=
  if x < y then .lt else if y < x then .gt else .eq

/-- Whether `needle` occurs as a contiguous run inside `hay`, modelling
`String.prototype.includes` over character lists. -/
def listIncl (needle : List Char) : List Char → Bool
  | [] => needle.isEmpty
  | c :: t => needle.isPrefixOf (c :: t) || listIncl needle t

/-- Models `hay.includes(needle)` for strings. -/
def strIncludes (hay needle : String) : Bool :=
  listIncl needle.data hay.data

/-- The helper `toText` from both CVE dashboards:
`v == null ? "" : String(v).toLowerCase()`. -/
def toText : JSVal → String
  | .null => ""
  | v => jsLower (jsToString v)

/-- One entry of `affected_packages` as read by the `/results2.json`
dashboard. -/
structure AffectedPkg where
  name : JSVal
  installed_version : JSVal
deriving DecidableEq, Repr

/-- A vulnerability row as consumed by the two CVE dashboards.  The
`/results.json` dashboard reads `cve_id`, `severity`, `vector`,
`score_version`, `base_score`, `exploitability` and `impact`; the
`/results2.json` dashboard additionally reads `debsecan_status` and
`affected_packages`.  Absent fields are `JSVal.null`. -/
structure VulnRow where
  cve_id : JSVal
  severity : JSVal
  base_score : JSVal
  vector : JSVal
  debsecan_status : JSVal
  exploitability : JSVal
  impact : JSVal
  score_version : JSVal
  affected_packages : List AffectedPkg
deriving DecidableEq, Repr

/-- The expression `String(a?.cve_id ?? "")`: the identifier string the comparators feed
to `localeCompare`. -/
def cveIdStr (r : VulnRow) : String :=
  match r.cve_id with
  | .null => ""
  | v => jsToString v

/-- The test `(r?.severity ?? "N/A") === sel` where `sel` is the select-box string:
a nullish field compares as `"N/A"`, a string field compares by equality,
and a numeric field is never strictly equal to a string. -/
def fieldEqSel (v : JSVal) (sel : String) : Bool :=
  match v with
  | .null => sel == "N/A"
  | .str s => s == sel
  | .num _ => false

/-- JavaScript `Array.prototype.sort` with a three-way comparator: the
(ES2019) specification makes it stable, and for a consistent comparator
the result is the stable sort by "comparator does not return a positive
number", which is `List.mergeSort`. -/
def jsSort (cmp : VulnRow → VulnRow → Ordering) (l : List VulnRow) : List VulnRow :=
  l.mergeSort (fun a b => cmp a b != Ordering.gt)

namespace ResultsDash

/-- The helper `safeNumber` of `CveDashboard.jsx`:
`const n = Number(x); return Number.isFinite(n) ? n : null;`. -/
def safeNumber (x : JSVal) : Option ℚ :=
  jsNumber x

/-- The sort comparator of the `/results.json` dashboard's `filtered`
memo; the source returns a JavaScript number whose sign this `Ordering`
encodes (`lt` = the first row sorts earlier). -/
def sortCmp (a b : VulnRow) : Ordering :=
  match safeNumber a.base_score, safeNumber b.base_score with
  | some an, some bn => ratCmp bn an
  | some _, none => .lt
  | none, some _ => .gt
  | none, none => lexCmp (cveIdStr a).data (cveIdStr b).data

/-- The helper `cveToSearchableText` of `CveDashboard.jsx`. -/
def cveToSearchableText (r : VulnRow) : String :=
  String.intercalate " "
    ([r.cve_id, r.severity, r.vector, r.score_version, r.base_score,
      r.exploitability, r.impact].map toText)

/-- The `filtered` memo of the `/results.json` dashboard: severity filter,
query filter, then the stable sort by `sortCmp`. -/
def filtered (rows : List VulnRow) (query sevSel : String) : List VulnRow :=
  let q := jsLower (jsTrim query)
  jsSort sortCmp
    (((rows.filter (fun r => sevSel == "ALL" || fieldEqSel r.severity sevSel)).filter
      (fun r => if q = "" then true else strIncludes (cveToSearchableText r) q)))

end ResultsDash

namespace Results2Dash

/-- The helper `safeNumber` of the `/results2.json` dashboard: null and the string
`"n/a"` (after trim and lowercasing) are rejected before the `Number`
coercion. -/
def safeNumber (x : JSVal) : Option ℚ :=
  match x with
  | .null => none
  | .str s => if jsLower (jsTrim s) == "n/a" then none else jsStringToNumber s
  | .num q => some q

/-- The sort comparator of the `/results2.json` dashboard's `filtered`
memo, encoded as in `ResultsDash.sortCmp`. -/
def sortCmp (a b : VulnRow) : Ordering :=
  match safeNumber a.base_score, safeNumber b.base_score with
  | some an, some bn => ratCmp bn an
  | some _, none => .lt
  | none, some _ => .gt
  | none, none => lexCmp (cveIdStr a).data (cveIdStr b).data

/-- The helper `packagesToText` of the `/results2.json` dashboard. -/
def packagesToText (pkgs : List AffectedPkg) : String :=
  jsLower (String.intercalate " "
    ((pkgs.map (fun p =>
      jsTrim ((match p.name with | .null => "" | v => jsToString v) ++ " " ++
        (match p.installed_version with | .null => "" | v => jsToString v)))).filter
      (fun s => s ≠ "")))

/-- The helper `vulnToSearchableText` of the `/results2.json` dashboard. -/
def vulnToSearchableText (r : VulnRow) : String :=
  String.intercalate " "
    ([r.cve_id, r.severity, r.score_version, r.vector, r.debsecan_status,
      r.base_score, r.exploitability, r.impact].map toText ++
      [packagesToText r.affected_packages])

/-- The `filtered` memo of the `/results2.json` dashboard: severity,
debsecan-status and query filters, then the stable sort by `sortCmp`. -/
def filtered (rows : List VulnRow) (query sevSel dsSel : String) : List VulnRow :=
  let q := jsLower (jsTrim query)
  jsSort sortCmp
    ((((rows.filter (fun r => sevSel == "ALL" || fieldEqSel r.severity sevSel)).filter
        (fun r => dsSel == "ALL" || fieldEqSel r.debsecan_status dsSel)).filter
      (fun r => if q = "" then true else strIncludes (vulnToSearchableText r) q)))

end Results2Dash

namespace UsersDash

/-- The `company` object of a user record, as read by
`userToSearchableText` (absent string fields are `none`). -/
structure Company where
  name : Option String
  catchPhrase : Option String
deriving DecidableEq, Repr

/-- The `address` object of a user record, as read by
`userToSearchableText`. -/
structure Address where
  street : Option String
  suite : Option String
  city : Option String
  zipcode : Option String
deriving DecidableEq, Repr

/-- A user record from the users dashboard (first component of
`src/unnamed/part_000`).  `id` is the JSONPlaceholder numeric id. -/
structure User where
  id : ℕ
  name : Option String
  username : Option String
  email : Option String
  phone : Option String
  website : Option String
  company : Option Company
  address : Option Address
deriving DecidableEq, Repr

/-- The JavaScript `filter(Boolean)` step on one searchable piece: an
absent field and the empty string are falsy and dropped. -/
def keepTruthy : Option String → Option String
  | none => none
  | some s => if s = "" then none else some s

/-- The address template literal:
```${street ?? ""} ${suite ?? ""} ${city ?? ""} ${zipcode ?? ""}``` when
`address` exists, `""` otherwise. -/
def addressText (u : User) : String :=
  match u.address with
  | none => ""
  | some a =>
    (a.street.getD "") ++ " " ++ (a.suite.getD "") ++ " " ++
      (a.city.getD "") ++ " " ++ (a.zipcode.getD "")

/-- The company template literal:
```${name ?? ""} ${catchPhrase ?? ""}``` when `company` exists, `""`
otherwise. -/
def companyText (u : User) : String :=
  match u.company with
  | none => ""
  | some c => (c.name.getD "") ++ " " ++ (c.catchPhrase.getD "")

/-- The helper `userToSearchableText`: the listed fields, with falsy entries dropped
(`filter(Boolean)`; a numeric id of `0` is falsy too), joined by spaces
and lowercased. -/
def userToSearchableText (u : User) : String :=
  jsLower (String.intercalate " "
    (([if u.id = 0 then none else some (toString u.id),
       u.name, u.username, u.email, u.phone, u.website,
       keepTruthy (some (companyText u)),
       keepTruthy (some (addressText u))].map keepTruthy).filterMap id))

/-- The `filteredUsers` memo: an empty trimmed query returns the list
unchanged, otherwise keep the users whose searchable text includes the
trimmed lowercased query. -/
def filteredUsers (query : String) (users : List User) : List User :=
  let q := jsLower (jsTrim query)
  if q = "" then users
  else users.filter (fun u => strIncludes (userToSearchableText u) q)

end UsersDash

namespace Backend

/-- Modelled from the spec: an `AffectedPackage` of the scan backend
(`modules/models.py` is not in the repository snapshot) — package name and
installed version string. -/
structure Pkg where
  name : String
  installed_version : String
deriving DecidableEq, Repr

/-- Modelled from the spec: one parsed record of the remote tool's
detail-format output before score resolution (the Vulnerability Scan
Parser's intermediate form): identifier, remote-tool status, affected
packages. -/
structure RawRecord where
  cve_id : String
  status : String
  packages : List Pkg
deriving DecidableEq, Repr

/-- Modelled from the spec: append the packages of a new input line to an
existing record's package list as a set union (duplicates are not added
again). -/
def unionPkgs (ps : List Pkg) (new : List Pkg) : List Pkg :=
  new.foldl (fun acc p => if p ∈ acc then acc else acc ++ [p]) ps

/-- Modelled from the spec: merge one input line into the accumulated
record list — if a record with the same identifier exists its package
list is unioned, otherwise a new record is appended. -/
def mergeInto : List RawRecord → RawRecord → List RawRecord
  | [], ln => [ln]
  | r :: rs, ln =>
    if r.cve_id = ln.cve_id then
      { r with packages := unionPkgs r.packages ln.packages } :: rs
    else r :: mergeInto rs ln

/-- Modelled from the spec: the Vulnerability Scan Parser's deduplication
step — "the parser must deduplicate by identifier before returning, so
downstream components see unique identifiers", merging package lists of
lines that share an identifier. -/
def dedupeByCve (lines : List RawRecord) : List RawRecord :=
  lines.foldl mergeInto []

/-- Modelled from the spec: the payload of a successful score resolution
(base score, scheme version, plus the optional display fields). -/
structure ScorePayload where
  base : ℚ
  version : String
deriving DecidableEq, Repr

/-- Modelled from the spec: a `VulnerabilityRecord` after score merge —
identifier, status, packages, optional score and scheme version. -/
structure VulnRecord where
  cve_id : String
  status : String
  packages : List Pkg
  score : Option ℚ
  score_version : Option String
deriving DecidableEq, Repr

/-- Modelled from the spec: step 4 of the Scan Orchestrator — merge each
resolved/unresolved score back onto its record (`resolve` abstracts the
Score Resolver's per-identifier outcome within one request). -/
def attachScores (resolve : String → Option ScorePayload) (recs : List RawRecord) :
    List VulnRecord :=
  recs.map (fun r =>
    { cve_id := r.cve_id, status := r.status, packages := r.packages,
      score := (resolve r.cve_id).map (fun p => p.base),
      score_version := (resolve r.cve_id).map (fun p => p.version) })

/-- Modelled from the spec: step 5 of the Scan Orchestrator — "drop
records whose score is below the requested threshold; additionally drop
unresolved records unless `show_unscored` is set". -/
def keepRecord (vuln_score : ℚ) (show_unscored : Bool) (r : VulnRecord) : Bool :=
  match r.score with
  | some s => decide (vuln_score ≤ s)
  | none => show_unscored

/-- Modelled from the spec: the record pipeline of one scan request after
parsing — deduplicate by identifier, resolve and merge scores, filter by
threshold and the `show_unscored` flag.  The returned list is the
response's `vulnerabilities` field. -/
def scanVulnerabilities (vuln_score : ℚ) (show_unscored : Bool)
    (resolve : String → Option ScorePayload) (lines : List RawRecord) :
    List VulnRecord :=
  (attachScores resolve (dedupeByCve lines)).filter (keepRecord vuln_score show_unscored)

/-- Modelled from the spec: a Score Cache entry — resolved payload and
resolution timestamp (seconds). -/
structure CacheEntry where
  payload : ScorePayload
  ts : ℕ
deriving DecidableEq, Repr

/-- Modelled from the spec: the Score Cache's keyed store, a
process-wide map from identifier to entry, embedded as an association
list. -/
abbrev Cache := List (String × CacheEntry)

/-- Lookup of the raw stored entry for an identifier. -/
def cacheFind (c : Cache) (id : String) : Option CacheEntry :=
  match c with
  | [] => none
  | (k, e) :: rest => if k = id then some e else cacheFind rest id

/-- Modelled from the spec: `get(identifier)` — absent is also returned
if the entry is present but past TTL ("the stale entry is treated as a
miss"). -/
def cacheGet (ttl now : ℕ) (c : Cache) (id : String) : Option CacheEntry :=
  match cacheFind c id with
  | none => none
  | some e => if now - e.ts < ttl then some e else none

/-- Modelled from the spec: `put(identifier, entry)` — overwrite the
entry for the identifier, inserting it if absent. -/
def cachePut (c : Cache) (id : String) (e : CacheEntry) : Cache :=
  match c with
  | [] => [(id, e)]
  | (k, e0) :: rest => if k = id then (id, e) :: rest else (k, e0) :: cachePut rest id e

/-- Modelled from the spec: one Score Resolver call for one identifier at
time `now` — consult the cache first ("a cache hit within TTL
short-circuits all external calls"); on a miss perform the external
lookup (`ext`, abstracting the versioned authority round trip) and on
success write through with the current timestamp.  The third component
counts the external lookups issued by this call. -/
def resolveOnce (ttl : ℕ) (ext : String → Option ScorePayload) (c : Cache)
    (id : String) (now : ℕ) : Option ScorePayload × Cache × ℕ :=
  match cacheGet ttl now c id with
  | some e => (some e.payload, c, 0)
  | none =>
    match ext id with
    | some p => (some p, cachePut c id ⟨p, now⟩, 1)
    | none => (none, c, 1)

/-- Modelled from the spec: the outcome of asking the external authority
for one scoring-scheme version of one identifier — the scheme may be
absent for that identifier, or yield a numeric base score. -/
inductive FetchOutcome where
  | absent
  | score (q : ℚ)
deriving DecidableEq, Repr

/-- Modelled from the spec: the fixed fallback chain of scoring-scheme
versions, newest to oldest (CVSS v4.0, then v3.1, then v2 per the backend
README). -/
def cvssVersions : List String := ["v4.0", "v3.1", "v2"]

/-- Modelled from the spec: the Score Resolver's version-fallback walk —
request the newest scheme version first, move to the next older version
only when the current scheme is absent, stop at the first version that
yields a numeric base score.  Returns the result (matched version and
score) and the list of versions queried, in query order. -/
def resolveChain (fetch : String → FetchOutcome) :
    List String → Option (String × ℚ) × List String
  | [] => (none, [])
  | v :: vs =>
    match fetch v with
    | .score q => (some (v, q), [v])
    | .absent =>
      let r := resolveChain fetch vs
      (r.1, v :: r.2)

end Backend

/-- The presentation ordering described by the specification, as amended:
scored records are ordered by score descending; a scored record precedes
an unscored one; two unscored records are ordered by identifier
(lexicographically, non-strictly).  Records with equal numeric scores are
tied (the comparator distinguishes them by nothing, so the stable sort
keeps their input order). -/
def presentationLe (a b : VulnRow) : Prop :=
  match Results2Dash.safeNumber a.base_score, Results2Dash.safeNumber b.base_score with
  | some x, some y => y ≤ x
  | some _, none => True
  | none, some _ => False
  | none, none => lexCmp (cveIdStr a).data (cveIdStr b).data ≠ Ordering.gt

/-- A row with every field absent, used to build the concrete rows of the
examples below. -/
def blankRow : VulnRow :=
  { cve_id := .null, severity := .null, base_score := .null, vector := .null,
    debsecan_status := .null, exploitability := .null, impact := .null,
    score_version := .null, affected_packages := [] }

/-- The specification's ordering example: identifier `A`, score `7.8`. -/
def exRowA : VulnRow := { blankRow with cve_id := .str "A", base_score := .num (mkRat 78 10) }

/-- The specification's ordering example: identifier `B`, score `9.1`. -/
def exRowB : VulnRow := { blankRow with cve_id := .str "B", base_score := .num (mkRat 91 10) }

/-- The specification's ordering example: identifier `C`, null score. -/
def exRowC : VulnRow := { blankRow with cve_id := .str "C" }

/-- Equal-score tie example: identifier `CVE-Z`, score `5`. -/
def tieRowZ : VulnRow := { blankRow with cve_id := .str "CVE-Z", base_score := .num 5 }

/-- Equal-score tie example: identifier `CVE-A`, score `5`. -/
def tieRowA : VulnRow := { blankRow with cve_id := .str "CVE-A", base_score := .num 5 }

/-- A row whose `base_score` is JSON null, identifier `CVE-B`. -/
def nullRowB : VulnRow := { blankRow with cve_id := .str "CVE-B" }

/-- A row whose `base_score` is the string `"n/a"`, identifier `CVE-A`. -/
def naRowA : VulnRow :=
  { blankRow with cve_id := .str "CVE-A", base_score := .str "n/a" }

/-- Demo scan input for the backend witnesses: two raw lines sharing one
identifier with different package lists, plus a distinct line. -/
def demoLines : List Backend.RawRecord :=
  [ { cve_id := "CVE-2013-7445", status := "open",
      packages := [{ name := "linux-image", installed_version := "6.12.47" }] },
    { cve_id := "CVE-2013-7445", status := "open",
      packages := [{ name := "linux-headers", installed_version := "6.12.47" }] },
    { cve_id := "CVE-2020-0001", status := "fixed",
      packages := [{ name := "libexample", installed_version := "1.0" }] } ]

/-- Demo resolver outcome for the backend witnesses: the first identifier
scores `7.8` under scheme `v2`, the second stays unresolved. -/
def demoResolve (id : String) : Option Backend.ScorePayload :=
  if id = "CVE-2013-7445" then some { base := mkRat 78 10, version := "v2" } else none

/-- Demo cache payload for the cache witness. -/
def demoPayload : Backend.ScorePayload := { base := mkRat 98 10, version := "v3.1" }

/-- Demo external authority for the fallback-chain witness: only scheme
version `v3.1` is present, with base score `7`. -/
def demoFetch (v : String) : Backend.FetchOutcome :=
  if v = "v3.1" then .score 7 else .absent

/-- Demo user record for the users-dashboard witness. -/
def demoUser : UsersDash.User :=
  { id := 1, name := some "Leanne Graham", username := some "Bret",
    email := some "Sincere@april.biz", phone := some "1-770-736-8031",
    website := some "hildegard.org",
    company := some { name := some "Romaguera-Crona",
                      catchPhrase := some "Multi-layered client-server neural-net" },
    address := some { street := some "Kulas Light", suite := some "Apt. 556",
                      city := some "Gwenborough", zipcode := some "92998-3874" } }

theorem natCmp_eq_iff {x y : ℕ} : natCmp x y = .eq ↔ x = y := by
  unfold natCmp; split_ifs <;> simp_all <;> omega

theorem natCmp_lt_iff {x y : ℕ} : natCmp x y = .lt ↔ x < y := by
  unfold natCmp; split_ifs <;> simp_all

theorem natCmp_gt_iff {x y : ℕ} : natCmp x y = .gt ↔ y < x := by
  unfold natCmp; split_ifs <;> simp_all; omega

theorem ratCmp_eq_iff {x y : ℚ} : ratCmp x y = .eq ↔ x = y := by
  unfold ratCmp; split_ifs <;> simp_all <;> linarith

theorem ratCmp_lt_iff {x y : ℚ} : ratCmp x y = .lt ↔ x < y := by
  unfold ratCmp; split_ifs <;> simp_all

theorem ratCmp_gt_iff {x y : ℚ} : ratCmp x y = .gt ↔ y < x := by
  unfold ratCmp; split_ifs <;> simp_all; linarith

theorem charEq_of_toNat_eq {c d : Char} (h : c.toNat = d.toNat) : c = d := by
  apply Char.eq_of_val_eq
  apply UInt32.ext
  exact h

theorem lexCmp_eq_iff : ∀ {a b : List Char}, lexCmp a b = .eq ↔ a = b := by
  intro a
  induction a with
  | nil => intro b; cases b <;> simp [lexCmp]
  | cons x xs ih =>
    intro b
    cases b with
    | nil => simp [lexCmp]
    | cons y ys =>
      simp only [lexCmp]
      cases hn : natCmp x.toNat y.toNat with
      | eq =>
        have hxy : x = y := charEq_of_toNat_eq (natCmp_eq_iff.mp hn)
        simp [ih, hxy]
      | lt =>
        have : x ≠ y := by
          intro h; rw [h] at hn; rw [natCmp_lt_iff] at hn; omega
        simp_all
      | gt =>
        have : x ≠ y := by
          intro h; rw [h] at hn; rw [natCmp_gt_iff] at hn; omega
        simp_all

theorem lexCmp_swap : ∀ (a b : List Char), lexCmp b a = (lexCmp a b).swap := by
  intro a
  induction a with
  | nil => intro b; cases b <;> simp [lexCmp, Ordering.swap]
  | cons x xs ih =>
    intro b
    cases b with
    | nil => simp [lexCmp, Ordering.swap]
    | cons y ys =>
      simp only [lexCmp]
      cases hn : natCmp x.toNat y.toNat with
      | eq =>
        have : natCmp y.toNat x.toNat = .eq := by
          rw [natCmp_eq_iff] at hn ⊢; omega
        simp [this, ih, Ordering.swap]
      | lt =>
        have : natCmp y.toNat x.toNat = .gt := by
          rw [natCmp_lt_iff] at hn; rw [natCmp_gt_iff]; omega
        simp [this, Ordering.swap]
      | gt =>
        have : natCmp y.toNat x.toNat = .lt := by
          rw [natCmp_gt_iff] at hn; rw [natCmp_lt_iff]; omega
        simp [this, Ordering.swap]

theorem lexCmp_le_trans :
    ∀ {a b c : List Char}, lexCmp a b ≠ .gt → lexCmp b c ≠ .gt → lexCmp a c ≠ .gt := by
  intro a
  induction a with
  | nil =>
    intro b c _ _
    cases c <;> simp [lexCmp]
  | cons x xs ih =>
    intro b c hab hbc
    cases b with
    | nil => simp [lexCmp] at hab
    | cons y ys =>
      cases c with
      | nil => simp [lexCmp] at hbc
      | cons z zs =>
        simp only [lexCmp] at hab hbc ⊢
        cases hxy : natCmp x.toNat y.toNat with
        | gt => simp [hxy] at hab
        | lt =>
          cases hyz : natCmp y.toNat z.toNat with
          | gt => simp [hyz] at hbc
          | lt =>
            have : natCmp x.toNat z.toNat = .lt := by
              rw [natCmp_lt_iff] at hxy hyz ⊢; omega
            simp [this]
          | eq =>
            have : natCmp x.toNat z.toNat = .lt := by
              rw [natCmp_lt_iff] at hxy ⊢; rw [natCmp_eq_iff] at hyz; omega
            simp [this]
        | eq =>
          cases hyz : natCmp y.toNat z.toNat with
          | gt => simp [hyz] at hbc
          | lt =>
            have : natCmp x.toNat z.toNat = .lt := by
              rw [natCmp_eq_iff] at hxy; rw [natCmp_lt_iff] at hyz ⊢; omega
            simp [this]
          | eq =>
            have hxz : natCmp x.toNat z.toNat = .eq := by
              rw [natCmp_eq_iff] at hxy hyz ⊢; omega
            rw [hxy] at hab
            rw [hyz] at hbc
            simp only [hxz]
            exact ih hab hbc

theorem mergeSort_pair {α : Type} (le : α → α → Bool) (a b : α) :
    [a, b].mergeSort le = if le a b then [a, b] else [b, a] := by
  rw [List.mergeSort]
  simp [List.splitInTwo, List.merge]

theorem mergeSort_three {α : Type} (le : α → α → Bool) (a b c : α) :
    [a, b, c].mergeSort le = ([a, b].mergeSort le).merge [c] le := by
  rw [List.mergeSort]
  simp [List.splitInTwo]

theorem sortCmp2_le_total (a b : VulnRow) :
    ((Results2Dash.sortCmp a b != Ordering.gt) || (Results2Dash.sortCmp b a != Ordering.gt)) = true := by
  rcases ha : Results2Dash.safeNumber a.base_score with _ | an <;>
    rcases hb : Results2Dash.safeNumber b.base_score with _ | bn <;>
      simp only [Results2Dash.sortCmp, ha, hb]
  · rw [Bool.or_eq_true]
    cases h : lexCmp (cveIdStr a).data (cveIdStr b).data with
    | lt => left; decide
    | eq => left; decide
    | gt =>
      right
      rw [lexCmp_swap (cveIdStr a).data (cveIdStr b).data, h]
      decide
  · decide
  · decide
  · rw [Bool.or_eq_true]
    cases h : ratCmp bn an with
    | lt => left; decide
    | eq => left; decide
    | gt =>
      right
      rw [ratCmp_lt_iff.mpr (ratCmp_gt_iff.mp h)]
      decide

theorem bneGt_iff (x : Ordering) : (x != Ordering.gt) = true ↔ x ≠ Ordering.gt := by
  cases x <;> decide

theorem sortCmp2_le_trans (a b c : VulnRow) :
    (Results2Dash.sortCmp a b != Ordering.gt) = true →
    (Results2Dash.sortCmp b c != Ordering.gt) = true →
    (Results2Dash.sortCmp a c != Ordering.gt) = true := by
  intro hab hbc
  rcases ha : Results2Dash.safeNumber a.base_score with _ | an <;>
    rcases hb : Results2Dash.safeNumber b.base_score with _ | bn <;>
      rcases hc : Results2Dash.safeNumber c.base_score with _ | cn <;>
        simp only [Results2Dash.sortCmp, ha, hb, hc] at hab hbc ⊢
  · rw [bneGt_iff] at hab hbc ⊢
    exact lexCmp_le_trans hab hbc
  · exact absurd hbc (by decide)
  · exact absurd hab (by decide)
  · exact absurd hab (by decide)
  · decide
  · exact absurd hbc (by decide)
  · decide
  · rw [bneGt_iff] at hab hbc ⊢
    intro hgt
    rw [ratCmp_gt_iff] at hgt
    have h1 : ¬ an < bn := fun h => hab (ratCmp_gt_iff.mpr h)
    have h2 : ¬ bn < cn := fun h => hbc (ratCmp_gt_iff.mpr h)
    push_neg at h1 h2
    linarith

theorem sortCmp2_le_iff (a b : VulnRow) :
    (Results2Dash.sortCmp a b != Ordering.gt) = true ↔ presentationLe a b := by
  rcases ha : Results2Dash.safeNumber a.base_score with _ | an <;>
    rcases hb : Results2Dash.safeNumber b.base_score with _ | bn <;>
      simp only [Results2Dash.sortCmp, presentationLe, ha, hb]
  · rw [bneGt_iff]
  · constructor
    · intro h; exact absurd h (by decide)
    · intro h; exact absurd h (by decide)
  · constructor
    · intro _; trivial
    · intro _; decide
  · rw [bneGt_iff]
    constructor
    · intro h
      by_contra hnot
      push_neg at hnot
      exact h (ratCmp_gt_iff.mpr hnot)
    · intro h hgt
      rw [ratCmp_gt_iff] at hgt
      linarith

/-- Claim C1, counterexample: the dashboards' sort comparators fall back
to identifier comparison only when both records are unscored; two records
with equal numeric scores (both `5`, identifiers `CVE-Z` then `CVE-A`)
compare as a tie, so the stable sort keeps them in input order
`[CVE-Z, CVE-A]` even though identifier-lexicographic ordering would put
`CVE-A` first — contradicting "orders records with equal or absent scores
by identifier lexicographically". -/
theorem c1_sort_counterexample :
    Results2Dash.safeNumber tieRowZ.base_score = some 5 ∧
    Results2Dash.safeNumber tieRowA.base_score = some 5 ∧
    lexCmp (cveIdStr tieRowA).data (cveIdStr tieRowZ).data = Ordering.lt ∧
    jsSort Results2Dash.sortCmp [tieRowZ, tieRowA] = [tieRowZ, tieRowA] ∧
    jsSort ResultsDash.sortCmp [tieRowZ, tieRowA] = [tieRowZ, tieRowA] ∧
    [tieRowZ, tieRowA] ≠ [tieRowA, tieRowZ] := by
  refine ⟨by decide, by decide, by decide, ?_, ?_, by decide⟩
  · unfold jsSort
    rw [mergeSort_pair,
      if_pos (by decide : (Results2Dash.sortCmp tieRowZ tieRowA != Ordering.gt) = true)]
  · unfold jsSort
    rw [mergeSort_pair,
      if_pos (by decide : (ResultsDash.sortCmp tieRowZ tieRowA != Ordering.gt) = true)]

/-- Claim C1, amended: for every list of vulnerability records the
presentation sort returns a permutation of its input that is pairwise
ordered by `presentationLe` (score descending; scored before unscored;
absent scores ordered by identifier lexicographically), records the
comparator ties — in particular records with equal numeric scores — keep
their relative input order, and the specification's example
`[A(7.8), B(9.1), C(null)]` sorts to `[B, A, C]`. -/
theorem c1_sort_amended :
    (∀ l : List VulnRow,
      (jsSort Results2Dash.sortCmp l).Perm l ∧
      (jsSort Results2Dash.sortCmp l).Pairwise presentationLe ∧
      (∀ a b : VulnRow, Results2Dash.sortCmp a b = .eq → List.Sublist [a, b] l →
        List.Sublist [a, b] (jsSort Results2Dash.sortCmp l))) ∧
    jsSort Results2Dash.sortCmp [exRowA, exRowB, exRowC] = [exRowB, exRowA, exRowC] := by
  constructor
  · intro l
    unfold jsSort
    refine ⟨List.mergeSort_perm l _, ?_, ?_⟩
    · exact List.Pairwise.imp (fun h => (sortCmp2_le_iff _ _).mp h)
        (List.sorted_mergeSort sortCmp2_le_trans sortCmp2_le_total l)
    · intro a b hab hsub
      exact List.sublist_mergeSort sortCmp2_le_trans sortCmp2_le_total
        (List.pairwise_pair.mpr (by rw [hab]; decide)) hsub
  · unfold jsSort
    rw [mergeSort_three, mergeSort_pair,
      if_neg (by decide : ¬ ((Results2Dash.sortCmp exRowA exRowB != Ordering.gt) = true))]
    rw [List.cons_merge_cons,
      if_pos (by decide :
        ((fun a b => Results2Dash.sortCmp a b != Ordering.gt) exRowB exRowC) = true)]
    rw [List.cons_merge_cons,
      if_pos (by decide :
        ((fun a b => Results2Dash.sortCmp a b != Ordering.gt) exRowA exRowC) = true)]
    simp [List.merge]

/-- Witness for the amended C1 theorem: applied to the concrete
equal-score pair, the tie keeps input order. -/
theorem c1_sort_amended_witness :
    Results2Dash.sortCmp tieRowZ tieRowA = Ordering.eq ∧
    List.Sublist [tieRowZ, tieRowA] (jsSort Results2Dash.sortCmp [tieRowZ, tieRowA]) :=
  ⟨by decide,
    (c1_sort_amended.1 [tieRowZ, tieRowA]).2.2 tieRowZ tieRowA (by decide)
      (List.Sublist.refl _)⟩

theorem listIncl_nil (l : List Char) : listIncl [] l = true := by
  cases l <;> simp [listIncl, List.isPrefixOf]

theorem strIncludes_empty (s : String) : strIncludes s "" = true :=
  listIncl_nil s.data

/-- Claim C7: the filter-and-sort step of both dashboards is a pure
function of the row list and the filter settings — identical inputs
produce identical output lists. -/
theorem c7_filter_sort_deterministic :
    ∀ (rows rows' : List VulnRow) (q q' sev sev' ds ds' : String),
      rows = rows' → q = q' → sev = sev' → ds = ds' →
      ResultsDash.filtered rows q sev = ResultsDash.filtered rows' q' sev' ∧
      Results2Dash.filtered rows q sev ds = Results2Dash.filtered rows' q' sev' ds' := by
  rintro rows _ q _ sev _ ds _ rfl rfl rfl rfl
  exact ⟨rfl, rfl⟩

/-- Witness for C7 at a concrete row list and concrete settings. -/
theorem c7_filter_sort_deterministic_witness :
    ResultsDash.filtered [exRowA] "" "ALL" = ResultsDash.filtered [exRowA] "" "ALL" ∧
    Results2Dash.filtered [exRowA] "" "ALL" "ALL" =
      Results2Dash.filtered [exRowA] "" "ALL" "ALL" :=
  c7_filter_sort_deterministic [exRowA] [exRowA] "" "" "ALL" "ALL" "ALL" "ALL"
    rfl rfl rfl rfl

/-- Claim C8, counterexample: on a record whose `base_score` is JSON null
(identifier `CVE-B`) against a record whose `base_score` is `"n/a"`
(identifier `CVE-A`), the `/results.json` comparator treats null as score
`0` and orders it first, while the `/results2.json` comparator treats
both as unscored and orders by identifier — the two dashboards produce
opposite relative orders. -/
theorem c8_comparator_counterexample :
    ResultsDash.sortCmp nullRowB naRowA = Ordering.lt ∧
    Results2Dash.sortCmp nullRowB naRowA = Ordering.gt ∧
    jsSort ResultsDash.sortCmp [nullRowB, naRowA] = [nullRowB, naRowA] ∧
    jsSort Results2Dash.sortCmp [nullRowB, naRowA] = [naRowA, nullRowB] := by
  refine ⟨by decide, by decide, ?_, ?_⟩
  · unfold jsSort
    rw [mergeSort_pair,
      if_pos (by decide : (ResultsDash.sortCmp nullRowB naRowA != Ordering.gt) = true)]
  · unfold jsSort
    rw [mergeSort_pair,
      if_neg (by decide : ¬ ((Results2Dash.sortCmp nullRowB naRowA != Ordering.gt) = true))]

/-- Claim C8, amended: the two comparators agree on every pair of records
on whose `base_score` values the two `safeNumber` helpers agree; the
helpers agree on every numeric score and on the string `"n/a"` (both
unscored), but disagree on JSON null, which the `/results.json` helper
maps to `0` and the `/results2.json` helper maps to unscored. -/
theorem c8_comparator_amended :
    (∀ a b : VulnRow,
      ResultsDash.safeNumber a.base_score = Results2Dash.safeNumber a.base_score →
      ResultsDash.safeNumber b.base_score = Results2Dash.safeNumber b.base_score →
      ResultsDash.sortCmp a b = Results2Dash.sortCmp a b) ∧
    (∀ q : ℚ, ResultsDash.safeNumber (.num q) = Results2Dash.safeNumber (.num q)) ∧
    ResultsDash.safeNumber (.str "n/a") = none ∧
    Results2Dash.safeNumber (.str "n/a") = none ∧
    ResultsDash.safeNumber .null = some 0 ∧
    Results2Dash.safeNumber .null = none := by
  refine ⟨?_, fun q => rfl, by decide, by decide, by decide, by decide⟩
  intro a b ha hb
  unfold ResultsDash.sortCmp Results2Dash.sortCmp
  rw [ha, hb]

/-- Witness for the amended C8 theorem at a concrete equal-helper pair. -/
theorem c8_comparator_amended_witness :
    ResultsDash.sortCmp tieRowZ tieRowA = Results2Dash.sortCmp tieRowZ tieRowA :=
  c8_comparator_amended.1 tieRowZ tieRowA (by decide) (by decide)

/-- Claim C10: in the `/results.json` dashboard, `safeNumber` applied to
JSON null returns `0`, so a null-scored record is ordered by the
comparator as a scored record with score `0` — two null-scored records
tie regardless of their identifiers (no identifier fallback), a
null-scored record compares against a scored record exactly as score `0`
does, and it sorts before every unscored record. -/
theorem c10_null_scores_as_zero :
    ResultsDash.safeNumber JSVal.null = some 0 ∧
    (∀ a b : VulnRow, a.base_score = JSVal.null → b.base_score = JSVal.null →
      ResultsDash.sortCmp a b = Ordering.eq) ∧
    (∀ a b : VulnRow, ∀ q : ℚ, a.base_score = JSVal.null →
      ResultsDash.safeNumber b.base_score = some q →
      ResultsDash.sortCmp a b = ratCmp q 0) ∧
    (∀ a b : VulnRow, a.base_score = JSVal.null →
      ResultsDash.safeNumber b.base_score = none →
      ResultsDash.sortCmp a b = Ordering.lt) := by
  refine ⟨rfl, ?_, ?_, ?_⟩
  · intro a b ha hb
    unfold ResultsDash.sortCmp
    rw [ha, hb]
    simp only [ResultsDash.safeNumber, jsNumber]
    decide
  · intro a b q ha hb
    unfold ResultsDash.sortCmp
    rw [hb, ha]
    simp only [ResultsDash.safeNumber, jsNumber]
  · intro a b ha hb
    unfold ResultsDash.sortCmp
    rw [hb, ha]
    simp only [ResultsDash.safeNumber, jsNumber]

/-- Witness for C10: two concrete records with null scores and different
identifiers tie. -/
theorem c10_null_scores_as_zero_witness :
    ResultsDash.sortCmp nullRowB exRowC = Ordering.eq :=
  c10_null_scores_as_zero.2.1 nullRowB exRowC (by decide) (by decide)

/-- Claim C9: the users dashboard's filter equals the list filter by
"searchable text includes the trimmed lowercased query", which preserves
input order and keeps exactly the matching records, and an empty trimmed
query returns the input list unchanged. -/
theorem c9_users_filter :
    ∀ (query : String) (users : List UsersDash.User),
      UsersDash.filteredUsers query users =
        users.filter (fun u =>
          strIncludes (UsersDash.userToSearchableText u) (jsLower (jsTrim query))) ∧
      (jsTrim query = "" → UsersDash.filteredUsers query users = users) := by
  intro query users
  constructor
  · simp only [UsersDash.filteredUsers]
    split_ifs with h
    · rw [h]
      symm
      rw [List.filter_eq_self]
      intro u _
      exact strIncludes_empty _
    · rfl
  · intro h
    simp only [UsersDash.filteredUsers, h]
    rw [if_pos (by decide : jsLower "" = "")]

/-- Witness for C9 at the empty query and a concrete user list. -/
theorem c9_users_filter_witness :
    UsersDash.filteredUsers "" [demoUser] = [demoUser] :=
  (c9_users_filter "" [demoUser]).2 (by decide)

theorem mem_unionPkgs :
    ∀ (new ps : List Backend.Pkg) (p : Backend.Pkg),
      p ∈ Backend.unionPkgs ps new ↔ p ∈ ps ∨ p ∈ new := by
  intro new
  induction new with
  | nil => intro ps p; simp [Backend.unionPkgs]
  | cons n ns ih =>
    intro ps p
    have step : Backend.unionPkgs ps (n :: ns) =
        Backend.unionPkgs (if n ∈ ps then ps else ps ++ [n]) ns := by
      simp only [Backend.unionPkgs, List.foldl_cons]
    rw [step, ih]
    split_ifs with hmem
    · constructor
      · rintro (hp | hp)
        · exact Or.inl hp
        · exact Or.inr (List.mem_cons_of_mem _ hp)
      · rintro (hp | hp)
        · exact Or.inl hp
        · rcases List.mem_cons.mp hp with rfl | hp
          · exact Or.inl hmem
          · exact Or.inr hp
    · simp only [List.mem_append, List.mem_cons, List.mem_singleton]
      tauto

theorem mergeInto_content (ln : Backend.RawRecord) :
    ∀ (acc : List Backend.RawRecord) (id : String) (p : Backend.Pkg),
      (∃ r0, r0 ∈ Backend.mergeInto acc ln ∧ r0.cve_id = id ∧ p ∈ r0.packages) ↔
        ((∃ r0, r0 ∈ acc ∧ r0.cve_id = id ∧ p ∈ r0.packages) ∨
          (ln.cve_id = id ∧ p ∈ ln.packages)) := by
  intro acc
  induction acc with
  | nil => intro id p; simp [Backend.mergeInto]
  | cons r rs ih =>
    intro id p
    by_cases h : r.cve_id = ln.cve_id
    · simp only [Backend.mergeInto, if_pos h, List.mem_cons]
      constructor
      · rintro ⟨r0, (rfl | hr0), hid, hp⟩
        · rw [mem_unionPkgs] at hp
          rcases hp with hp | hp
          · exact Or.inl ⟨r, Or.inl rfl, hid, hp⟩
          · exact Or.inr ⟨h ▸ hid, hp⟩
        · exact Or.inl ⟨r0, Or.inr hr0, hid, hp⟩
      · rintro (⟨r0, (rfl | hr0), hid, hp⟩ | ⟨hid, hp⟩)
        · exact ⟨_, Or.inl rfl, hid, (mem_unionPkgs _ _ _).mpr (Or.inl hp)⟩
        · exact ⟨r0, Or.inr hr0, hid, hp⟩
        · exact ⟨_, Or.inl rfl, h.symm ▸ hid, (mem_unionPkgs _ _ _).mpr (Or.inr hp)⟩
    · simp only [Backend.mergeInto, if_neg h, List.mem_cons]
      constructor
      · rintro ⟨r0, (rfl | hr0), hid, hp⟩
        · exact Or.inl ⟨r0, Or.inl rfl, hid, hp⟩
        · rcases (ih id p).mp ⟨r0, hr0, hid, hp⟩ with ⟨r1, hr1, hid1, hp1⟩ | hln
          · exact Or.inl ⟨r1, Or.inr hr1, hid1, hp1⟩
          · exact Or.inr hln
      · rintro (⟨r0, (rfl | hr0), hid, hp⟩ | ⟨hid, hp⟩)
        · exact ⟨r0, Or.inl rfl, hid, hp⟩
        · rcases (ih id p).mpr (Or.inl ⟨r0, hr0, hid, hp⟩) with ⟨r1, hr1, hid1, hp1⟩
          exact ⟨r1, Or.inr hr1, hid1, hp1⟩
        · rcases (ih id p).mpr (Or.inr ⟨hid, hp⟩) with ⟨r1, hr1, hid1, hp1⟩
          exact ⟨r1, Or.inr hr1, hid1, hp1⟩

theorem mergeInto_ids (ln : Backend.RawRecord) :
    ∀ (acc : List Backend.RawRecord) (id : String),
      (∃ r0, r0 ∈ Backend.mergeInto acc ln ∧ r0.cve_id = id) ↔
        ((∃ r0, r0 ∈ acc ∧ r0.cve_id = id) ∨ ln.cve_id = id) := by
  intro acc
  induction acc with
  | nil => intro id; simp [Backend.mergeInto]
  | cons r rs ih =>
    intro id
    by_cases h : r.cve_id = ln.cve_id
    · simp only [Backend.mergeInto, if_pos h, List.mem_cons]
      constructor
      · rintro ⟨r0, (rfl | hr0), hid⟩
        · exact Or.inl ⟨r, Or.inl rfl, hid⟩
        · exact Or.inl ⟨r0, Or.inr hr0, hid⟩
      · rintro (⟨r0, (rfl | hr0), hid⟩ | hid)
        · exact ⟨_, Or.inl rfl, hid⟩
        · exact ⟨r0, Or.inr hr0, hid⟩
        · exact ⟨_, Or.inl rfl, h.symm ▸ hid⟩
    · simp only [Backend.mergeInto, if_neg h, List.mem_cons]
      constructor
      · rintro ⟨r0, (rfl | hr0), hid⟩
        · exact Or.inl ⟨r0, Or.inl rfl, hid⟩
        · rcases (ih id).mp ⟨r0, hr0, hid⟩ with ⟨r1, hr1, hid1⟩ | hln
          · exact Or.inl ⟨r1, Or.inr hr1, hid1⟩
          · exact Or.inr hln
      · rintro (⟨r0, (rfl | hr0), hid⟩ | hid)
        · exact ⟨r0, Or.inl rfl, hid⟩
        · rcases (ih id).mpr (Or.inl ⟨r0, hr0, hid⟩) with ⟨r1, hr1, hid1⟩
          exact ⟨r1, Or.inr hr1, hid1⟩
        · rcases (ih id).mpr (Or.inr hid) with ⟨r1, hr1, hid1⟩
          exact ⟨r1, Or.inr hr1, hid1⟩

theorem dedupe_content :
    ∀ (lines acc : List Backend.RawRecord) (id : String) (p : Backend.Pkg),
      (∃ r, r ∈ List.foldl Backend.mergeInto acc lines ∧ r.cve_id = id ∧ p ∈ r.packages) ↔
        ((∃ r0, r0 ∈ acc ∧ r0.cve_id = id ∧ p ∈ r0.packages) ∨
          (∃ ln, ln ∈ lines ∧ ln.cve_id = id ∧ p ∈ ln.packages)) := by
  intro lines
  induction lines with
  | nil => intro acc id p; simp
  | cons ln lns ih =>
    intro acc id p
    simp only [List.foldl_cons]
    rw [ih, mergeInto_content]
    simp only [List.mem_cons]
    constructor
    · rintro ((⟨r0, hr0, hid, hp⟩ | ⟨hid, hp⟩) | ⟨l, hl, hid, hp⟩)
      · exact Or.inl ⟨r0, hr0, hid, hp⟩
      · exact Or.inr ⟨ln, Or.inl rfl, hid, hp⟩
      · exact Or.inr ⟨l, Or.inr hl, hid, hp⟩
    · rintro (⟨r0, hr0, hid, hp⟩ | ⟨l, (rfl | hl), hid, hp⟩)
      · exact Or.inl (Or.inl ⟨r0, hr0, hid, hp⟩)
      · exact Or.inl (Or.inr ⟨hid, hp⟩)
      · exact Or.inr ⟨l, hl, hid, hp⟩

theorem dedupe_ids :
    ∀ (lines acc : List Backend.RawRecord) (id : String),
      (∃ r, r ∈ List.foldl Backend.mergeInto acc lines ∧ r.cve_id = id) ↔
        ((∃ r0, r0 ∈ acc ∧ r0.cve_id = id) ∨ (∃ ln, ln ∈ lines ∧ ln.cve_id = id)) := by
  intro lines
  induction lines with
  | nil => intro acc id; simp
  | cons ln lns ih =>
    intro acc id
    simp only [List.foldl_cons]
    rw [ih, mergeInto_ids]
    simp only [List.mem_cons]
    constructor
    · rintro ((⟨r0, hr0, hid⟩ | hid) | ⟨l, hl, hid⟩)
      · exact Or.inl ⟨r0, hr0, hid⟩
      · exact Or.inr ⟨ln, Or.inl rfl, hid⟩
      · exact Or.inr ⟨l, Or.inr hl, hid⟩
    · rintro (⟨r0, hr0, hid⟩ | ⟨l, (rfl | hl), hid⟩)
      · exact Or.inl (Or.inl ⟨r0, hr0, hid⟩)
      · exact Or.inl (Or.inr hid)
      · exact Or.inr ⟨l, hl, hid⟩

theorem mergeInto_map_id (ln : Backend.RawRecord) :
    ∀ acc : List Backend.RawRecord,
      (Backend.mergeInto acc ln).map (fun r => r.cve_id) =
        if ln.cve_id ∈ acc.map (fun r => r.cve_id) then acc.map (fun r => r.cve_id)
        else acc.map (fun r => r.cve_id) ++ [ln.cve_id] := by
  intro acc
  induction acc with
  | nil => simp [Backend.mergeInto]
  | cons r rs ih =>
    by_cases h : r.cve_id = ln.cve_id
    · have hmem : ln.cve_id ∈ (r :: rs).map (fun r => r.cve_id) := by
        simp [h.symm]
      rw [if_pos hmem]
      simp [Backend.mergeInto, h]
    · simp only [Backend.mergeInto, if_neg h, List.map_cons, ih]
      by_cases hmem : ln.cve_id ∈ rs.map (fun r => r.cve_id)
      · rw [if_pos hmem, if_pos (by simp [hmem])]
      · rw [if_neg hmem,
          if_neg (by simp [hmem]; exact fun hh => h hh.symm)]
        simp

theorem dedupe_nodup :
    ∀ (lines acc : List Backend.RawRecord),
      (acc.map (fun r => r.cve_id)).Nodup →
      ((List.foldl Backend.mergeInto acc lines).map (fun r => r.cve_id)).Nodup := by
  intro lines
  induction lines with
  | nil => intro acc h; simpa using h
  | cons ln lns ih =>
    intro acc h
    simp only [List.foldl_cons]
    apply ih
    rw [mergeInto_map_id]
    split_ifs with hmem
    · exact h
    · rw [List.nodup_append]
      refine ⟨h, List.nodup_singleton _, ?_⟩
      intro a ha hax
      simp only [List.mem_singleton] at hax
      subst hax
      exact hmem ha

theorem attachScores_map_id (resolve : String → Option Backend.ScorePayload)
    (recs : List Backend.RawRecord) :
    (Backend.attachScores resolve recs).map (fun r => r.cve_id) =
      recs.map (fun r => r.cve_id) := by
  simp only [Backend.attachScores, List.map_map]
  rfl

/-- Claim C2: within one scan response the vulnerability identifiers are
unique, and the deduplication step merges raw lines sharing an identifier
into one record whose package list is exactly the union of those lines'
package lists (same packages, same identifiers covered). -/
theorem c2_unique_identifiers :
    ∀ (vuln_score : ℚ) (show_unscored : Bool)
      (resolve : String → Option Backend.ScorePayload)
      (lines : List Backend.RawRecord),
      ((Backend.scanVulnerabilities vuln_score show_unscored resolve lines).map
        (fun r => r.cve_id)).Nodup ∧
      (∀ (id : String) (p : Backend.Pkg),
        (∃ r, r ∈ Backend.dedupeByCve lines ∧ r.cve_id = id ∧ p ∈ r.packages) ↔
          (∃ ln, ln ∈ lines ∧ ln.cve_id = id ∧ p ∈ ln.packages)) ∧
      (∀ id : String,
        (∃ r, r ∈ Backend.dedupeByCve lines ∧ r.cve_id = id) ↔
          (∃ ln, ln ∈ lines ∧ ln.cve_id = id)) := by
  intro vs su resolve lines
  refine ⟨?_, ?_, ?_⟩
  · have h1 : ((Backend.dedupeByCve lines).map (fun r => r.cve_id)).Nodup :=
      dedupe_nodup lines [] (by simp)
    have h2 : ((Backend.attachScores resolve (Backend.dedupeByCve lines)).map
        (fun r => r.cve_id)).Nodup := by
      rw [attachScores_map_id]; exact h1
    have h3 : List.Sublist (Backend.scanVulnerabilities vs su resolve lines)
        (Backend.attachScores resolve (Backend.dedupeByCve lines)) :=
      List.filter_sublist _
    exact (h3.map (fun r => r.cve_id)).nodup h2
  · intro id p
    have h := dedupe_content lines [] id p
    simpa [Backend.dedupeByCve] using h
  · intro id
    have h := dedupe_ids lines [] id
    simpa [Backend.dedupeByCve] using h

/-- Witness for C2 on the demo scan input: the deduplicated response has
unique identifiers and the shared identifier carries both packages. -/
theorem c2_unique_identifiers_witness :
    ((Backend.scanVulnerabilities 0 true demoResolve demoLines).map
      (fun r => r.cve_id)).Nodup ∧
    (∃ ln, ln ∈ demoLines ∧ ln.cve_id = "CVE-2013-7445" ∧
      ({ name := "linux-headers", installed_version := "6.12.47" } : Backend.Pkg)
        ∈ ln.packages) :=
  ⟨(c2_unique_identifiers 0 true demoResolve demoLines).1,
    ((c2_unique_identifiers 0 true demoResolve demoLines).2.1 "CVE-2013-7445"
      { name := "linux-headers", installed_version := "6.12.47" }).mp (by decide)⟩

/-- Claim C3: every record in the returned vulnerabilities list that has
a numeric score satisfies score ≥ vuln_score. -/
theorem c3_threshold_respected :
    ∀ (vuln_score : ℚ) (show_unscored : Bool)
      (resolve : String → Option Backend.ScorePayload)
      (lines : List Backend.RawRecord) (r : Backend.VulnRecord) (s : ℚ),
      r ∈ Backend.scanVulnerabilities vuln_score show_unscored resolve lines →
      r.score = some s → vuln_score ≤ s := by
  intro vs su resolve lines r s hmem hscore
  unfold Backend.scanVulnerabilities at hmem
  have h := List.of_mem_filter hmem
  unfold Backend.keepRecord at h
  rw [hscore] at h
  simpa using h

/-- Witness for C3 on the demo scan input with threshold 7: the single
returned record's score 7.8 is at least 7. -/
theorem c3_threshold_respected_witness : (7 : ℚ) ≤ mkRat 78 10 :=
  c3_threshold_respected 7 false demoResolve demoLines
    { cve_id := "CVE-2013-7445", status := "open",
      packages := [{ name := "linux-image", installed_version := "6.12.47" },
                   { name := "linux-headers", installed_version := "6.12.47" }],
      score := some (mkRat 78 10), score_version := some "v2" }
    (mkRat 78 10) (by decide) (by decide)

/-- Claim C4: with `show_unscored = false` every returned record has a
non-null score, and a record whose score resolution failed is present in
the response exactly when `show_unscored` is true. -/
theorem c4_show_unscored :
    ∀ (vuln_score : ℚ) (resolve : String → Option Backend.ScorePayload)
      (lines : List Backend.RawRecord),
      (∀ r, r ∈ Backend.scanVulnerabilities vuln_score false resolve lines →
        r.score ≠ none) ∧
      (∀ (show_unscored : Bool) (r : Backend.VulnRecord),
        r ∈ Backend.attachScores resolve (Backend.dedupeByCve lines) →
        r.score = none →
        (r ∈ Backend.scanVulnerabilities vuln_score show_unscored resolve lines ↔
          show_unscored = true)) := by
  intro vs resolve lines
  constructor
  · intro r hmem hnone
    unfold Backend.scanVulnerabilities at hmem
    have h := List.of_mem_filter hmem
    unfold Backend.keepRecord at h
    rw [hnone] at h
    simp at h
  · intro su r hpre hnone
    unfold Backend.scanVulnerabilities
    rw [List.mem_filter]
    constructor
    · rintro ⟨_, hkeep⟩
      unfold Backend.keepRecord at hkeep
      rw [hnone] at hkeep
      exact hkeep
    · intro hsu
      refine ⟨hpre, ?_⟩
      unfold Backend.keepRecord
      rw [hnone]
      exact hsu

/-- Witness for C4: the demo unresolved record is returned when
`show_unscored` is true. -/
theorem c4_show_unscored_witness :
    (({ cve_id := "CVE-2020-0001", status := "fixed",
        packages := [{ name := "libexample", installed_version := "1.0" }],
        score := none, score_version := none } : Backend.VulnRecord) ∈
      Backend.scanVulnerabilities 0 true demoResolve demoLines) ↔ true = true :=
  (c4_show_unscored 0 demoResolve demoLines).2 true
    { cve_id := "CVE-2020-0001", status := "fixed",
      packages := [{ name := "libexample", installed_version := "1.0" }],
      score := none, score_version := none }
    (by decide) rfl

theorem cacheFind_cachePut :
    ∀ (c : Backend.Cache) (id : String) (e : Backend.CacheEntry),
      Backend.cacheFind (Backend.cachePut c id e) id = some e := by
  intro c id e
  induction c with
  | nil => simp [Backend.cachePut, Backend.cacheFind]
  | cons kv rest ih =>
    obtain ⟨k, e0⟩ := kv
    by_cases h : k = id
    · simp [Backend.cachePut, Backend.cacheFind, h]
    · simp [Backend.cachePut, Backend.cacheFind, h, ih]

/-- Claim C5: starting from a cache with no entry for the identifier, a
successful resolution at `t1` issues one external lookup and writes the
entry; a second resolution at `t2` within TTL is served by the cache
(zero external lookups, same payload, cache unchanged); a third
resolution at `t3` past TTL issues another external lookup whose
successful result overwrites the entry with the new timestamp. -/
theorem c5_cache_roundtrip :
    ∀ (ttl : ℕ) (ext : String → Option Backend.ScorePayload) (c : Backend.Cache)
      (id : String) (t1 t2 t3 : ℕ) (p : Backend.ScorePayload),
      Backend.cacheFind c id = none → ext id = some p →
      t2 - t1 < ttl → ttl ≤ t3 - t1 →
      (Backend.resolveOnce ttl ext c id t1).2.2 = 1 ∧
      Backend.resolveOnce ttl ext (Backend.resolveOnce ttl ext c id t1).2.1 id t2 =
        (some p, (Backend.resolveOnce ttl ext c id t1).2.1, 0) ∧
      (Backend.resolveOnce ttl ext
          (Backend.resolveOnce ttl ext
            (Backend.resolveOnce ttl ext c id t1).2.1 id t2).2.1 id t3).2.2 = 1 ∧
      Backend.cacheFind
        (Backend.resolveOnce ttl ext
          (Backend.resolveOnce ttl ext
            (Backend.resolveOnce ttl ext c id t1).2.1 id t2).2.1 id t3).2.1 id =
        some ⟨p, t3⟩ := by
  intro ttl ext c id t1 t2 t3 p hmiss hext h12 h13
  have hget1 : Backend.cacheGet ttl t1 c id = none := by
    unfold Backend.cacheGet
    rw [hmiss]
  have hr1 : Backend.resolveOnce ttl ext c id t1 =
      (some p, Backend.cachePut c id ⟨p, t1⟩, 1) := by
    unfold Backend.resolveOnce
    rw [hget1, hext]
  have hfind1 : Backend.cacheFind (Backend.cachePut c id ⟨p, t1⟩) id = some ⟨p, t1⟩ :=
    cacheFind_cachePut c id ⟨p, t1⟩
  have hget2 : Backend.cacheGet ttl t2 (Backend.cachePut c id ⟨p, t1⟩) id =
      some ⟨p, t1⟩ := by
    unfold Backend.cacheGet
    rw [hfind1]
    exact if_pos h12
  have hr2 : Backend.resolveOnce ttl ext (Backend.cachePut c id ⟨p, t1⟩) id t2 =
      (some p, Backend.cachePut c id ⟨p, t1⟩, 0) := by
    unfold Backend.resolveOnce
    rw [hget2]
  have hget3 : Backend.cacheGet ttl t3 (Backend.cachePut c id ⟨p, t1⟩) id = none := by
    unfold Backend.cacheGet
    rw [hfind1]
    exact if_neg (show ¬ t3 - t1 < ttl by omega)
  have hr3 : Backend.resolveOnce ttl ext (Backend.cachePut c id ⟨p, t1⟩) id t3 =
      (some p, Backend.cachePut (Backend.cachePut c id ⟨p, t1⟩) id ⟨p, t3⟩, 1) := by
    unfold Backend.resolveOnce
    rw [hget3, hext]
  refine ⟨by rw [hr1], ?_, ?_, ?_⟩
  · rw [hr1]
    exact hr2
  · rw [hr1]
    have : (Backend.resolveOnce ttl ext (Backend.cachePut c id ⟨p, t1⟩) id t2).2.1 =
        Backend.cachePut c id ⟨p, t1⟩ := by rw [hr2]
    rw [this, hr3]
  · rw [hr1]
    have : (Backend.resolveOnce ttl ext (Backend.cachePut c id ⟨p, t1⟩) id t2).2.1 =
        Backend.cachePut c id ⟨p, t1⟩ := by rw [hr2]
    rw [this, hr3]
    exact cacheFind_cachePut _ id ⟨p, t3⟩

/-- Witness for C5 with TTL 10 and resolutions at times 0, 5 and 10: the
final cache holds the payload with timestamp 10. -/
theorem c5_cache_roundtrip_witness :
    Backend.cacheFind
      (Backend.resolveOnce 10 (fun _ => some demoPayload)
        (Backend.resolveOnce 10 (fun _ => some demoPayload)
          (Backend.resolveOnce 10 (fun _ => some demoPayload) [] "CVE-1" 0).2.1
          "CVE-1" 5).2.1 "CVE-1" 10).2.1 "CVE-1" = some ⟨demoPayload, 10⟩ :=
  (c5_cache_roundtrip 10 (fun _ => some demoPayload) [] "CVE-1" 0 5 10 demoPayload
    rfl rfl (by decide) (by decide)).2.2.2

theorem resolveChain_spec (fetch : String → Backend.FetchOutcome) :
    ∀ vs : List String,
      List.IsPrefix (Backend.resolveChain fetch vs).2 vs ∧
      (∀ v ∈ (Backend.resolveChain fetch vs).2.dropLast,
        fetch v = Backend.FetchOutcome.absent) ∧
      (∀ (v : String) (q : ℚ),
        (Backend.resolveChain fetch vs).1 = some (v, q) →
          fetch v = Backend.FetchOutcome.score q ∧
          (Backend.resolveChain fetch vs).2.getLast? = some v) ∧
      ((Backend.resolveChain fetch vs).1 = none →
        (Backend.resolveChain fetch vs).2 = vs ∧
        ∀ v ∈ vs, fetch v = Backend.FetchOutcome.absent) := by
  intro vs
  induction vs with
  | nil =>
    refine ⟨List.nil_prefix, ?_, ?_, ?_⟩
    · intro v hv
      simp [Backend.resolveChain] at hv
    · intro v q h
      simp [Backend.resolveChain] at h
    · intro _
      exact ⟨rfl, by intro v hv; simp at hv⟩
  | cons v vs ih =>
    obtain ⟨ihpre, ihdrop, ihsome, ihnone⟩ := ih
    cases hf : fetch v with
    | score q =>
      have hres : Backend.resolveChain fetch (v :: vs) = (some (v, q), [v]) := by
        simp [Backend.resolveChain, hf]
      rw [hres]
      refine ⟨⟨vs, rfl⟩, ?_, ?_, ?_⟩
      · intro w hw
        simp [List.dropLast] at hw
      · intro w r h
        injection h with h
        injection h with h1 h2
        subst h1
        subst h2
        exact ⟨hf, rfl⟩
      · intro h
        simp at h
    | absent =>
      have hres : Backend.resolveChain fetch (v :: vs) =
          ((Backend.resolveChain fetch vs).1, v :: (Backend.resolveChain fetch vs).2) := by
        simp [Backend.resolveChain, hf]
      rw [hres]
      refine ⟨?_, ?_, ?_, ?_⟩
      · exact (List.prefix_cons_inj v).mpr ihpre
      · intro w hw
        cases h2 : (Backend.resolveChain fetch vs).2 with
        | nil =>
          rw [h2] at hw
          simp [List.dropLast] at hw
        | cons x xs =>
          rw [h2] at hw
          rw [List.dropLast_cons₂] at hw
          rcases List.mem_cons.mp hw with rfl | hw
          · exact hf
          · apply ihdrop
            rw [h2]
            exact hw
      · intro w r h
        obtain ⟨hfw, hlast⟩ := ihsome w r h
        refine ⟨hfw, ?_⟩
        cases h2 : (Backend.resolveChain fetch vs).2 with
        | nil =>
          rw [h2] at hlast
          simp at hlast
        | cons x xs =>
          rw [h2] at hlast
          show (v :: x :: xs).getLast? = some w
          rw [List.getLast?_cons_cons]
          exact hlast
      · intro h
        obtain ⟨heq, habs⟩ := ihnone h
        refine ⟨by rw [heq], ?_⟩
        intro w hw
        rcases List.mem_cons.mp hw with rfl | hw
        · exact hf
        · exact habs w hw

/-- Claim C6: on a cache miss the Score Resolver walks the fixed
newest-to-oldest scheme chain `v4.0, v3.1, v2`: the versions it queries
form a prefix of that chain, every queried version except the last was
absent (it advances only on absence), a returned result comes from the
last queried version with that version's numeric base score (the first
version that yields one), and when no version yields a score the whole
chain was queried and every version was absent. -/
theorem c6_version_fallback :
    Backend.cvssVersions = ["v4.0", "v3.1", "v2"] ∧
    ∀ fetch : String → Backend.FetchOutcome,
      List.IsPrefix (Backend.resolveChain fetch Backend.cvssVersions).2
        Backend.cvssVersions ∧
      (∀ v ∈ (Backend.resolveChain fetch Backend.cvssVersions).2.dropLast,
        fetch v = Backend.FetchOutcome.absent) ∧
      (∀ (v : String) (q : ℚ),
        (Backend.resolveChain fetch Backend.cvssVersions).1 = some (v, q) →
          fetch v = Backend.FetchOutcome.score q ∧
          (Backend.resolveChain fetch Backend.cvssVersions).2.getLast? = some v) ∧
      ((Backend.resolveChain fetch Backend.cvssVersions).1 = none →
        (Backend.resolveChain fetch Backend.cvssVersions).2 = Backend.cvssVersions ∧
        ∀ v ∈ Backend.cvssVersions, fetch v = Backend.FetchOutcome.absent) :=
  ⟨rfl, fun fetch => resolveChain_spec fetch Backend.cvssVersions⟩

/-- Witness for C6: with only scheme `v3.1` present, the resolver's
result comes from `v3.1`, the last version queried. -/
theorem c6_version_fallback_witness :
    demoFetch "v3.1" = Backend.FetchOutcome.score 7 ∧
    (Backend.resolveChain demoFetch Backend.cvssVersions).2.getLast? = some "v3.1" :=
  ((c6_version_fallback.2 demoFetch).2.2.1) "v3.1" 7 (by decide)
